import Mathlib

/-!
Shallow embedding of `app/services/trust_score_calculator.py`
(`TrustScoreCalculator`): the validators, the review aggregation pass and
`calculate_trust_score`.  Strings are modelled as `List Char` (ASCII
semantics for `isdigit` / `upper` / `lower` / whitespace); Python `datetime`
values as integer second counts; an uncaught Python exception as `none`.
-/

set_option maxRecDepth 8000

namespace Nexaway

/-- Python `str.strip()`: drop whitespace from both ends. -/
def pyStrip (s : List Char) : List Char :=
  ((s.dropWhile Char.isWhitespace).reverse.dropWhile Char.isWhitespace).reverse

/-- Python `phone.replace(' ', '').replace('-', '')`: remove every space and hyphen. -/
def removeSpaceHyphen (s : List Char) : List Char :=
  s.filter (fun c => c != ' ' && c != '-')

def plus216 : List Char := "+216".data

/-- `TrustScoreCalculator.BLOCKED_PREFIXES = ['1', '6', '8', '0']`. -/
def blockedFirstDigits : List Char := "1680".data

/-- `TrustScoreCalculator.validate_phone`: returns `(is_valid, message, score_change)`. -/
def validate_phone (phone : List Char) : Bool × String × Int :=
  if phone = [] then (false, "Phone number missing", -20)
  else
    let normalized := pyStrip (removeSpaceHyphen phone)
    if !(plus216.isPrefixOf normalized) then (false, "Must start with +216", -20)
    else if normalized.length ≠ 12 then
      (false, "Invalid length (must be +216 + 8 digits)", -20)
    else
      let digits := normalized.drop 4
      if !(digits.all Char.isDigit) then (false, "Non-digit characters after +216", -20)
      else if digits.length ≠ 8 then (false, "Must have 8 digits", -20)
      else
        match digits with
        | [] => (false, "Must have 8 digits", -20)  -- unreachable: the length check passed
        | d :: _ =>
          if d ∈ blockedFirstDigits then (false, "Blocked prefix " ++ String.mk [d], -30)
          else (true, "Valid Tunisian phone", 15)

/-- Character class `[a-zA-Z0-9._%+-]` of the e-mail pattern. -/
def isLocalChar (c : Char) : Bool :=
  c.isAlphanum || c == '.' || c == '_' || c == '%' || c == '+' || c == '-'

/-- Character class `[a-zA-Z0-9.-]` of the e-mail pattern. -/
def isDomainChar (c : Char) : Bool :=
  c.isAlphanum || c == '.' || c == '-'

/-- The part after `@`, pattern piece `[a-zA-Z0-9.-]+\.[a-zA-Z]{2,}` anchored at the
end: everything after the last dot is the 2+-letter TLD, everything before it the
nonempty domain body (a TLD has no dot, so only the last dot can split a match). -/
def domainMatch (s : List Char) : Bool :=
  let revs := s.reverse
  let tldRev := revs.takeWhile (fun c => c != '.')
  match revs.dropWhile (fun c => c != '.') with
  | '.' :: domRev =>
      decide (domRev ≠ []) && domRev.all isDomainChar &&
        decide (2 ≤ tldRev.length) && tldRev.all Char.isAlpha
  | _ => false

/-- Core of `re.match(r'^[a-zA-Z0-9._%+-]+@[a-zA-Z0-9.-]+\.[a-zA-Z]{2,}$', s)`:
since neither class contains `@`, the local part runs to the first `@`. -/
def emailCore (s : List Char) : Bool :=
  let localPart := s.takeWhile (fun c => c != '@')
  match s.dropWhile (fun c => c != '@') with
  | '@' :: rest => decide (localPart ≠ []) && localPart.all isLocalChar && domainMatch rest
  | _ => false

/-- Python's `$` also matches just before a single trailing newline. -/
def reMatchEmail (s : List Char) : Bool :=
  emailCore s || (s.getLast? == some '\n' && emailCore s.dropLast)

/-- Python `needle in hay` on strings: contiguous-substring test. -/
def isSubstring (needle : List Char) : List Char → Bool
  | [] => needle.isPrefixOf []
  | c :: rest => needle.isPrefixOf (c :: rest) || isSubstring needle rest

/-- The suspicious-token blocklist, in source order. -/
def suspiciousWords : List (List Char) :=
  ["free".data, "temp".data, "spam".data, "fake".data, "test123".data, "test456".data]

/-- `TrustScoreCalculator.validate_email`. -/
def validate_email (email : List Char) : Bool × String × Int :=
  if email = [] then (false, "Email missing", -20)
  else if reMatchEmail email = false then (false, "Invalid email format", -20)
  else
    let emailLower := email.map Char.toLower
    match suspiciousWords.find? (fun w => isSubstring w emailLower) with
    | some w => (false, "Suspicious domain (" ++ String.mk w ++ ")", -25)
    | none => (true, "Valid email domain", 15)

/-- Core of `re.match(r'^[0-9]{8}[A-Z]$', s)`: exactly 8 digits then one capital. -/
def rneCore (s : List Char) : Bool :=
  decide (s.length = 9) && (s.take 8).all Char.isDigit && (s.drop 8).all Char.isUpper

/-- The RNE pattern with Python's trailing-newline `$` behaviour. -/
def reMatchRNE (s : List Char) : Bool :=
  rneCore s || (s.getLast? == some '\n' && rneCore s.dropLast)

/-- `tax_id.replace(' ', '').strip().upper()`. -/
def rneNormalized (t : List Char) : List Char :=
  (pyStrip (t.filter (fun c => c != ' '))).map Char.toUpper

/-- `TrustScoreCalculator.validate_rne`. -/
def validate_rne (tax_id : List Char) : Bool × String × Int :=
  if tax_id = [] then (false, "Tax ID missing", -25)
  else if reMatchRNE (rneNormalized tax_id) then (true, "Valid RNE format", 20)
  else (false, "Invalid RNE format (must be 8 digits + 1 letter)", -25)

/-- `TrustScoreCalculator.validate_official_name`. -/
def validate_official_name (official_name : List Char) : Bool × String × Int :=
  if official_name ≠ [] ∧ pyStrip official_name ≠ [] then (true, "Official name verified", 10)
  else (false, "No official name", 0)

/-- An exact rational `num / den` kept unnormalized, so that all arithmetic is
kernel-computable (`ℚ` normalizes through `Nat.gcd`, which does not reduce).
Values built by the embedding always have `den > 0`. -/
structure Frac where
  num : Int
  den : Nat
deriving DecidableEq

def Frac.ofInt (n : Int) : Frac := ⟨n, 1⟩

def Frac.add (a b : Frac) : Frac := ⟨a.num * b.den + b.num * a.den, a.den * b.den⟩

/-- Division by a natural count (the only division the calculator performs). -/
def Frac.divNat (a : Frac) (n : Nat) : Frac := ⟨a.num, a.den * n⟩

/-- `a ≤ b` by cross-multiplication (valid for positive denominators). -/
def Frac.le (a b : Frac) : Bool := decide (a.num * b.den ≤ b.num * a.den)

def Frac.toRat (a : Frac) : ℚ := (a.num : ℚ) / (a.den : ℚ)

/-- The executable comparison agrees with the rational order on genuine fractions. -/
theorem Frac.le_iff_toRat (a b : Frac) (ha : 0 < a.den) (hb : 0 < b.den) :
    Frac.le a b = true ↔ a.toRat ≤ b.toRat := by
  have ha' : (0 : ℚ) < (a.den : ℚ) := by exact_mod_cast ha
  have hb' : (0 : ℚ) < (b.den : ℚ) := by exact_mod_cast hb
  rw [Frac.le, decide_eq_true_iff, Frac.toRat, Frac.toRat, div_le_div_iff₀ ha' hb']
  constructor
  · intro h; exact_mod_cast h
  · intro h; exact_mod_cast h

/-- A Python attribute value as seen by `float(...)` and numeric comparison: either a
number (which both accept) or a non-numeric value (on which both raise); `truthy`
records Python truthiness of the non-numeric value. -/
inductive PyScalar where
  | num (q : Frac)
  | nonnum (truthy : Bool)
deriving DecidableEq

/-- A review as the calculator reads it through `getattr`/`hasattr`: `none` in a field
models the attribute being absent (for `reply` also a falsy value, for `reply_at` and
`created_at` also a value on which datetime subtraction raises, which the source
catches). -/
structure Review where
  status : Option (List Char)
  rating : Option PyScalar
  reply : Option (List Char)
  reply_at : Option Int
  created_at : Option Int
  re_rating : Option PyScalar
deriving DecidableEq

def approvedStr : List Char := "approved".data

/-- `getattr(r, 'status', 'approved')`. -/
def statusOf (r : Review) : List Char := r.status.getD approvedStr

/-- The filter `getattr(r, 'status', 'approved') == 'approved'`. -/
def isApproved (r : Review) : Bool := statusOf r == approvedStr

/-- Python `float(...)`: `none` models the raised `ValueError`/`TypeError`. -/
def pyFloat : PyScalar → Option Frac
  | .num q => some q
  | .nonnum _ => none

def truthyScalar : PyScalar → Bool
  | .num q => decide (q.num ≠ 0)
  | .nonnum t => t

/-- A left-to-right effectful map over a list, stopping at the first failure, as a
Python loop or comprehension would. -/
def pyListMap (f : α → Option β) : List α → Option (List β)
  | [] => some []
  | a :: l =>
    match f a, pyListMap f l with
    | some b, some bs => some (b :: bs)
    | _, _ => none

/-- `[float(r.rating) for r in approved if hasattr(r, 'rating')]`. -/
def ratingsOf (approved : List Review) : Option (List Frac) :=
  pyListMap pyFloat (approved.filterMap Review.rating)

/-- One iteration of the fast-reply loop: has a truthy `reply` and a `reply_at`, and
`reply_at - created_at < timedelta(hours=24)` (86400 seconds); the `try/except`
swallows a failing subtraction, counting the review as not fast. -/
def isFastReply (r : Review) : Bool :=
  match r.reply, r.reply_at with
  | some s, some t =>
    decide (s ≠ []) &&
      (match r.created_at with
       | some c => decide (t - c < 86400)
       | none => false)
  | _, _ => false

/-- One iteration of the resolutions loop: `hasattr(r, 're_rating') and r.re_rating
and r.re_rating >= 4`; comparing a truthy non-numeric value with 4 raises (`none`). -/
def resolvedCheck (r : Review) : Option Bool :=
  match r.re_rating with
  | none => some false
  | some v =>
    if truthyScalar v then
      match v with
      | .num q => some (Frac.le (Frac.ofInt 4) q)
      | .nonnum _ => none
    else some false

def intStr (i : Int) : String :=
  if i < 0 then "-" ++ Nat.repr i.natAbs else Nat.repr i.natAbs

/-- Round `q` to the nearest integer, ties to even (the rule behind `f"{x:.1f}"`):
with `f = ⌊q⌋` and remainder `r = q - f ∈ [0,1)`, compare `r` with `1/2` by
cross-multiplication. -/
def roundHalfEven (q : Frac) : ℤ :=
  let f := Int.fdiv q.num (q.den : ℤ)
  let rnum := q.num - f * (q.den : ℤ)
  if 2 * rnum < (q.den : ℤ) then f
  else if (q.den : ℤ) < 2 * rnum then f + 1
  else if f % 2 = 0 then f else f + 1

/-- Python `f"{x:.1f}"` on exact rationals. -/
def fmt1 (q : Frac) : String :=
  let n := roundHalfEven ⟨q.num * 10, q.den⟩
  let m := n.natAbs
  let core := Nat.repr (m / 10) ++ "." ++ Nat.repr (m % 10)
  if n < 0 then "-" ++ core else core

/-- The body of `calculate_from_reviews` past the approved filter (source lines
146–186), on the nonempty approved list. -/
def reviewSignal (approved : List Review) : Option (Int × List String) :=
  match ratingsOf approved with
  | none => none
  | some ratings =>
        let p1 : Int × List String :=
          if ratings = [] then (0, [])
          else
            let avg := (ratings.foldl Frac.add (Frac.ofInt 0)).divNat ratings.length
            if Frac.le (Frac.ofInt 4) avg then
              (20, ["High ratings (" ++ fmt1 avg ++ "★) (+20)"])
            else if Frac.le (Frac.ofInt 3) avg then
              (10, ["Good ratings (" ++ fmt1 avg ++ "★) (+10)"])
            else (-15, ["Low ratings (" ++ fmt1 avg ++ "★) (-15)"])
        let fastReplies := approved.countP isFastReply
        let p2 : Int × List String :=
          if 0 < fastReplies then (10, ["Fast replies (" ++ Nat.repr fastReplies ++ ") (+10)"])
          else (0, [])
        match pyListMap resolvedCheck approved with
        | none => none
        | some flags =>
          let resolutions := flags.count true
          let p3 : Int × List String :=
            if 0 < resolutions then
              (15, ["Good resolutions (" ++ Nat.repr resolutions ++ ") (+15)"])
            else (0, [])
          some (p1.1 + p2.1 + p3.1, p1.2 ++ p2.2 ++ p3.2)

/-- `TrustScoreCalculator.calculate_from_reviews`; `none` models an uncaught
exception (a non-numeric `rating` under `float`, or a truthy non-numeric
`re_rating` under `>= 4`). -/
def calculate_from_reviews (reviews : List Review) : Option (Int × List String) :=
  if reviews = [] then some (0, ["No reviews yet"])
  else
    let approved := reviews.filter isApproved
    if approved = [] then some (0, ["No approved reviews"])
    else reviewSignal approved

/-- The agency fields the calculator reads; the duck-typed `getattr`/`dict.get`
access reduces to "the stored value when present, else empty/`None`", both of
which `getD []` captures (the validators treat `''` and `None` alike: falsy). -/
structure Agency where
  phone : Option (List Char)
  email : Option (List Char)
  tax_id : Option (List Char)
  official_name : Option (List Char)
deriving DecidableEq

/-- One value of the `details` dict. -/
inductive Entry where
  | validated (valid : Bool) (message : String) (score : Int)
  | named (has_name : Bool) (score : Int)
  | reviewsAgg (score : Int) (count : Nat)
deriving DecidableEq

/-- The dict returned by `calculate_trust_score`. -/
structure ScoreResult where
  score : Int
  reasons : List String
  details : List (String × Entry)
  base_score : Int
deriving DecidableEq

def phoneReasonStr (v : Bool × String × Int) : String :=
  if v.1 then "Valid phone format (+" ++ intStr v.2.2 ++ ")"
  else "Invalid phone: " ++ v.2.1 ++ " (" ++ intStr v.2.2 ++ ")"

def emailReasonStr (v : Bool × String × Int) : String :=
  if v.1 then "Valid email domain (+" ++ intStr v.2.2 ++ ")"
  else "Invalid email: " ++ v.2.1 ++ " (" ++ intStr v.2.2 ++ ")"

def rneReasonStr (v : Bool × String × Int) : String :=
  if v.1 then "Valid RNE format (+" ++ intStr v.2.2 ++ ")"
  else "Invalid RNE: " ++ v.2.1 ++ " (" ++ intStr v.2.2 ++ ")"

/-- The official-name reason is appended only under `if has_name:`. -/
def nameReasonsStr (v : Bool × String × Int) : List String :=
  if v.1 then ["Official name verified (+" ++ intStr v.2.2 ++ ")"] else []

/-- `if reviews:` — the review pass runs only on a truthy (nonempty) list. -/
def reviewsComponent (reviews : List Review) : Option (Int × List String) :=
  if reviews = [] then some (0, []) else calculate_from_reviews reviews

def entryOf (v : Bool × String × Int) : Entry := .validated v.1 v.2.1 v.2.2

/-- `TrustScoreCalculator.calculate_trust_score`; `none` models an uncaught
exception escaping from the review pass. -/
def calculate_trust_score (agency : Agency) (reviews : List Review) : Option ScoreResult :=
  let pr := validate_phone (agency.phone.getD [])
  let er := validate_email (agency.email.getD [])
  let rr := validate_rne (agency.tax_id.getD [])
  let nr := validate_official_name (agency.official_name.getD [])
  let nameDelta := if nr.1 then nr.2.2 else 0
  match reviewsComponent reviews with
  | none => none
  | some (reviewScore, reviewReasons) =>
    let score := 50 + pr.2.2 + er.2.2 + rr.2.2 + nameDelta + reviewScore
    some ⟨min 100 (max 0 score),
          [phoneReasonStr pr, emailReasonStr er, rneReasonStr rr]
            ++ nameReasonsStr nr ++ reviewReasons,
          [("phone", entryOf pr), ("email", entryOf er), ("rne", entryOf rr),
           ("official_name", Entry.named nr.1 nr.2.2),
           ("reviews", Entry.reviewsAgg reviewScore reviews.length)],
          50⟩

/-! Concrete fixtures used by witnesses and counterexamples. -/

def agency0 : Agency := ⟨none, none, none, none⟩

def result0 : ScoreResult :=
  ⟨0,
   ["Invalid phone: Phone number missing (-20)", "Invalid email: Email missing (-20)",
    "Invalid RNE: Tax ID missing (-25)"],
   [("phone", .validated false "Phone number missing" (-20)),
    ("email", .validated false "Email missing" (-20)),
    ("rne", .validated false "Tax ID missing" (-25)),
    ("official_name", .named false 0),
    ("reviews", .reviewsAgg 0 0)],
   50⟩

/-- An approved review whose `rating` attribute is a truthy non-numeric value. -/
def reviewBadRating : Review := ⟨none, some (.nonnum true), none, none, none, none⟩

/-- An approved 5★ review whose reply timestamp (0) precedes its creation (1000). -/
def reviewNeg : Review :=
  ⟨none, some (.num (Frac.ofInt 5)), some "ok".data, some 0, some 1000, none⟩

/-- An approved review replied to one hour after creation. -/
def reviewFast : Review := ⟨none, none, some "ok".data, some 3600, some 0, none⟩

/-- An approved review with the wildly out-of-range rating 100. -/
def review100 : Review := ⟨none, some (.num (Frac.ofInt 100)), none, none, none, none⟩

/-- An approved review rated 1. -/
def review1 : Review := ⟨none, some (.num (Frac.ofInt 1)), none, none, none, none⟩

/-- The per-call income of the average-rating rule as a function of the average. -/
def ratingBucket (q : Frac) : Int :=
  if Frac.le (Frac.ofInt 4) q then 20
  else if Frac.le (Frac.ofInt 3) q then 10
  else -15

def containsSuspicious (email : List Char) : Bool :=
  suspiciousWords.any (fun w => isSubstring w (email.map Char.toLower))

/-- C1: for every agency and review list on which the computation completes, the
returned score is an integer (by type) clamped into `[0, 100]`:
`score = min 100 (max 0 (50 + Σ deltas))`. -/
theorem trust_score_bounded (a : Agency) (rs : List Review) (res : ScoreResult)
    (h : calculate_trust_score a rs = some res) : 0 ≤ res.score ∧ res.score ≤ 100 := by
  cases hm : reviewsComponent rs with
  | none => simp [calculate_trust_score, hm] at h
  | some p =>
    obtain ⟨rsc, rr⟩ := p
    simp only [calculate_trust_score, hm, Option.some.injEq] at h
    subst h
    constructor
    · exact le_min (by norm_num) (le_max_left 0 _)
    · exact min_le_left _ _

/-- C1 witness: the all-empty agency with no reviews evaluates to a score in range. -/
theorem trust_score_bounded_witness : 0 ≤ result0.score ∧ result0.score ≤ 100 :=
  trust_score_bounded agency0 [] result0 (by decide)

/-- C4: the blocklist dominates syntactic validity — a syntactically matching e-mail
containing a suspicious token scores −25, and a missing or non-matching e-mail
scores −20. -/
theorem email_blocklist_dominates (e : List Char) :
    (reMatchEmail e = true → containsSuspicious e = true → (validate_email e).2.2 = -25) ∧
    (reMatchEmail e = false → (validate_email e).2.2 = -20) := by
  constructor
  · intro hm hs
    have he : e ≠ [] := by
      intro h
      subst h
      exact absurd hm (by decide)
    rw [containsSuspicious, List.any_eq_true] at hs
    obtain ⟨w, hw, hsub⟩ := hs
    cases hf : suspiciousWords.find? (fun w => isSubstring w (e.map Char.toLower)) with
    | none => exact absurd hsub (by simpa using List.find?_eq_none.mp hf w hw)
    | some w' => simp [validate_email, he, hm, hf]
  · intro hm
    by_cases he : e = []
    · simp [validate_email, he]
    · simp [validate_email, he, hm]

/-- C4 witness: `fake-test123@mail.com` is syntactically valid, blocklisted, −25. -/
theorem email_blocklist_dominates_witness :
    reMatchEmail "fake-test123@mail.com".data = true ∧
    containsSuspicious "fake-test123@mail.com".data = true ∧
    (validate_email "fake-test123@mail.com".data).2.2 = -25 :=
  ⟨by decide, by decide,
   (email_blocklist_dominates "fake-test123@mail.com".data).1 (by decide) (by decide)⟩

/-- C5: the tax-ID delta is +20 exactly when the normalized (space-stripped,
uppercased) value matches the 8-digits-plus-capital pattern, and −25 in every other
case — for the empty/missing tax ID just as for a malformed one. -/
theorem rne_delta_characterization (t : List Char) :
    ((validate_rne t).2.2 = 20 ↔ reMatchRNE (rneNormalized t) = true) ∧
    ((validate_rne t).2.2 = 20 ∨ (validate_rne t).2.2 = -25) := by
  by_cases ht : t = []
  · subst ht
    refine ⟨⟨fun h => absurd h (by decide), fun h => absurd h (by decide)⟩, Or.inr (by decide)⟩
  · cases hr : reMatchRNE (rneNormalized t) with
    | true => simp [validate_rne, ht, hr]
    | false => simp [validate_rne, ht, hr]

/-- C5 witness: `" 1234 5678a "` normalizes to `12345678A` and earns +20. -/
theorem rne_delta_characterization_witness : (validate_rne " 1234 5678a ".data).2.2 = 20 :=
  (rne_delta_characterization " 1234 5678a ".data).1.mpr (by decide)

/-- C6 counterexample: a reply timestamped 1000 seconds *before* the review's
creation still counts as fast-replied and earns the +10 bonus. -/
theorem fast_reply_counts_negative_delta :
    reviewNeg.reply_at = some 0 ∧ reviewNeg.created_at = some 1000 ∧
    isFastReply reviewNeg = true ∧
    calculate_from_reviews [reviewNeg] =
      some (30, ["High ratings (5.0★) (+20)", "Fast replies (1) (+10)"]) := by decide

/-- C6 amended: an approved review counts as fast-replied iff it has a truthy reply,
a reply timestamp, a subtractable creation timestamp and
`reply_at - created_at < 24 h` — with no lower bound, so negative deltas count;
nothing raises. -/
theorem fast_reply_characterization (r : Review) :
    isFastReply r = true ↔
      ∃ s t c, r.reply = some s ∧ s ≠ [] ∧ r.reply_at = some t ∧
        r.created_at = some c ∧ t - c < 86400 := by
  unfold isFastReply
  cases hrep : r.reply with
  | none => simp
  | some s =>
    cases hat : r.reply_at with
    | none => simp
    | some t =>
      cases hc : r.created_at with
      | none => simp [hc]
      | some c => simp [hc, and_assoc]

/-- C6 amended witness: a reply one hour after creation is fast-replied. -/
theorem fast_reply_characterization_witness : isFastReply reviewFast = true :=
  (fast_reply_characterization reviewFast).mpr
    ⟨"ok".data, 3600, 0, rfl, by decide, rfl, rfl, by decide⟩

/-- C7 counterexample: an approved rating of 100 flows raw into the average —
`[100, 1, 1]` averages 34 and lands the +20 bucket, where excluding (average 1) or
clamping (average 7/3) the out-of-range value would land −15. -/
theorem out_of_range_rating_used_raw :
    calculate_from_reviews [review100, review1, review1] =
      some (20, ["High ratings (34.0★) (+20)"]) ∧
    ratingBucket (Frac.ofInt 1) = -15 ∧ ratingBucket ⟨7, 3⟩ = -15 := by decide

/-! Spec-side phone predicates (the claim's language, stated on the raw input). -/

/-- Nonempty, and after stripping spaces/hyphens: `+216` followed by 8 digits. -/
def phoneShapeOK (p : List Char) : Bool :=
  let n := pyStrip (removeSpaceHyphen p)
  decide (p ≠ []) && plus216.isPrefixOf n && decide (n.length = 12) &&
    (n.drop 4).all Char.isDigit

/-- The first subscriber digit of the normalized number. -/
def phoneFirstDigit (p : List Char) : Option Char :=
  ((pyStrip (removeSpaceHyphen p)).drop 4).head?

def phoneBlocked (p : List Char) : Bool :=
  match phoneFirstDigit p with
  | some d => decide (d ∈ blockedFirstDigits)
  | none => false

def allowedFirstDigits : List Char := "234579".data

lemma phone_delta_eq (p : List Char) :
    (validate_phone p).2.2 =
      if phoneShapeOK p then (if phoneBlocked p then -30 else 15) else -20 := by
  by_cases hp : p = []
  · subst hp; decide
  · cases hpre : plus216.isPrefixOf (pyStrip (removeSpaceHyphen p)) with
    | false => simp [validate_phone, phoneShapeOK, hp, hpre]
    | true =>
      by_cases hlen : (pyStrip (removeSpaceHyphen p)).length = 12
      · cases hdig : ((pyStrip (removeSpaceHyphen p)).drop 4).all Char.isDigit with
        | false => simp [validate_phone, phoneShapeOK, hp, hpre, hlen, hdig]
        | true =>
          have hlen8 : ((pyStrip (removeSpaceHyphen p)).drop 4).length = 8 := by
            rw [List.length_drop, hlen]
          rcases hd : (pyStrip (removeSpaceHyphen p)).drop 4 with _ | ⟨d, rest⟩
          · rw [hd] at hlen8; simp at hlen8
          · rw [hd] at hlen8
            rw [hd] at hdig
            simp only [List.all_cons, Bool.and_eq_true, List.all_eq_true] at hdig
            obtain ⟨hd1, hd2⟩ := hdig
            have hnex : ¬ ∃ x ∈ rest, x.isDigit = false := by
              rintro ⟨x, hx, hfx⟩
              rw [hd2 x hx] at hfx
              cases hfx
            by_cases hb : d ∈ blockedFirstDigits
            · simp [validate_phone, phoneShapeOK, phoneBlocked, phoneFirstDigit, hp, hpre,
                hlen, hd, hlen8, hb, hd1]
              rw [if_neg hnex, if_pos hd2]
            · simp [validate_phone, phoneShapeOK, phoneBlocked, phoneFirstDigit, hp, hpre,
                hlen, hd, hlen8, hb, hd1]
              rw [if_neg hnex, if_pos hd2]
      · simp [validate_phone, phoneShapeOK, hp, hpre, hlen]

/-- C3: the phone delta is −20 on a missing number or any shape deviation, −30
exactly on a shape-valid number whose leading subscriber digit is blocked, +15 on
every other shape-valid number — in particular on every leading digit in
`{2,3,4,5,7,9}`. -/
theorem phone_delta_characterization (p : List Char) :
    ((validate_phone p).2.2 =
      if phoneShapeOK p then (if phoneBlocked p then -30 else 15) else -20) ∧
    (∀ d, phoneFirstDigit p = some d → d ∈ allowedFirstDigits →
      phoneShapeOK p = true → (validate_phone p).2.2 = 15) := by
  refine ⟨phone_delta_eq p, ?_⟩
  intro d hd hall hshape
  have hnb : phoneBlocked p = false := by
    rw [phoneBlocked, hd]
    fin_cases hall <;> decide
  rw [phone_delta_eq p, hshape, hnb]
  simp

/-- C3 witness: `+216 27 123 456` is shape-valid with allowed leading digit 2. -/
theorem phone_delta_characterization_witness :
    phoneFirstDigit "+216 27 123 456".data = some '2' ∧
    (validate_phone "+216 27 123 456".data).2.2 = 15 :=
  ⟨by decide,
   (phone_delta_characterization "+216 27 123 456".data).2 '2' (by decide) (by decide)
     (by decide)⟩

/-! C2: totality. -/

/-- A review none of whose dangerous fields raises: its `rating`, if present, is
numeric, and its `re_rating`, if present and truthy, is numeric. -/
def safeReview (r : Review) : Bool :=
  (match r.rating with
   | some (PyScalar.nonnum _) => false
   | _ => true) &&
  (match r.re_rating with
   | some (PyScalar.nonnum t) => !t
   | _ => true)

lemma pyListMap_isSome {α β : Type} (f : α → Option β) (l : List α)
    (h : ∀ x ∈ l, (f x).isSome) : (pyListMap f l).isSome := by
  induction l with
  | nil => simp [pyListMap]
  | cons a l ih =>
    have ha := h a (by simp)
    have hl := ih (fun x hx => h x (by simp [hx]))
    cases hfa : f a with
    | none => rw [hfa] at ha; simp at ha
    | some b =>
      cases hfl : pyListMap f l with
      | none => rw [hfl] at hl; simp at hl
      | some bs => simp [pyListMap, hfa, hfl]

lemma calculate_from_reviews_isSome (rs : List Review)
    (h : ∀ r ∈ rs, isApproved r = true → safeReview r = true) :
    (calculate_from_reviews rs).isSome := by
  unfold calculate_from_reviews
  by_cases hrs : rs = []
  · simp [hrs]
  · rw [if_neg hrs]
    by_cases hap : rs.filter isApproved = []
    · simp [hap]
    · have hratings : (ratingsOf (rs.filter isApproved)).isSome := by
        rw [ratingsOf]
        apply pyListMap_isSome
        intro v hv
        rw [List.mem_filterMap] at hv
        obtain ⟨r, hrmem, hrat⟩ := hv
        rw [List.mem_filter] at hrmem
        obtain ⟨hrs', happ⟩ := hrmem
        have hs := h r hrs' happ
        rw [safeReview, Bool.and_eq_true] at hs
        obtain ⟨h1, _⟩ := hs
        rw [hrat] at h1
        cases v with
        | num q => simp [pyFloat]
        | nonnum t => simp at h1
      have hres : (pyListMap resolvedCheck (rs.filter isApproved)).isSome := by
        apply pyListMap_isSome
        intro r hr
        rw [List.mem_filter] at hr
        obtain ⟨hrs', happ⟩ := hr
        have hs := h r hrs' happ
        rw [safeReview, Bool.and_eq_true] at hs
        obtain ⟨_, h2⟩ := hs
        rw [resolvedCheck]
        cases hre : r.re_rating with
        | none => simp
        | some v =>
          cases v with
          | num q => dsimp only; split <;> simp
          | nonnum t =>
            rw [hre] at h2
            simp only [Bool.not_eq_true'] at h2
            simp [truthyScalar, h2]
      obtain ⟨ratings, hr⟩ := Option.isSome_iff_exists.mp hratings
      obtain ⟨flags, hf⟩ := Option.isSome_iff_exists.mp hres
      simp [reviewSignal, hap, hr, hf]

/-- C2 counterexample: one approved review whose `rating` is a truthy non-numeric
value makes the whole computation raise (`float(r.rating)` is not guarded). -/
theorem trust_score_raises_on_nonnumeric_rating :
    calculate_trust_score agency0 [reviewBadRating] = none := by decide

/-- C2 amended: the computation is total whenever every approved review's `rating`
attribute (if any) is numeric and its `re_rating` attribute (if present and truthy)
is numeric; all remaining malformed-input branches have defined fallbacks. -/
theorem trust_score_total_on_numeric (a : Agency) (rs : List Review)
    (h : ∀ r ∈ rs, isApproved r = true → safeReview r = true) :
    ∃ res, calculate_trust_score a rs = some res := by
  have hrc : (reviewsComponent rs).isSome := by
    by_cases hrs : rs = []
    · simp [reviewsComponent, hrs]
    · rw [reviewsComponent, if_neg hrs]
      exact calculate_from_reviews_isSome rs h
  obtain ⟨p, hp⟩ := Option.isSome_iff_exists.mp hrc
  obtain ⟨rsc, rr⟩ := p
  exact ⟨_, by rw [calculate_trust_score, hp]⟩

/-- An ordinary approved 5★ review. -/
def reviewGood : Review := ⟨none, some (.num (Frac.ofInt 5)), none, none, none, none⟩

/-- C2 amended witness: a numeric-rated review list completes. -/
theorem trust_score_total_on_numeric_witness :
    ∃ res, calculate_trust_score agency0 [reviewGood] = some res :=
  trust_score_total_on_numeric agency0 [reviewGood] (by decide)

/-! C9: a review with no `status` attribute. -/

def setStatus (r : Review) (s : Option (List Char)) : Review :=
  ⟨s, r.rating, r.reply, r.reply_at, r.created_at, r.re_rating⟩

lemma setStatus_rating (r : Review) (s : Option (List Char)) :
    (setStatus r s).rating = r.rating := rfl

lemma isFastReply_setStatus (r : Review) (s : Option (List Char)) :
    isFastReply (setStatus r s) = isFastReply r := rfl

lemma resolvedCheck_setStatus (r : Review) (s : Option (List Char)) :
    resolvedCheck (setStatus r s) = resolvedCheck r := rfl

/-- C9: a review with no `status` attribute defaults to `'approved'` — replacing the
absent status by an explicit `'approved'` changes nothing anywhere in the review
pass — and a review enters the approved filter iff its status is absent or exactly
`'approved'`. -/
theorem missing_status_treated_as_approved (r : Review) (rs : List Review) :
    (r.status = none →
      calculate_from_reviews (r :: rs) =
        calculate_from_reviews (setStatus r (some approvedStr) :: rs)) ∧
    (isApproved r = true ↔ (r.status = none ∨ r.status = some approvedStr)) := by
  constructor
  · intro h
    have happ : isApproved r = true := by simp [isApproved, statusOf, h]
    have happ' : isApproved (setStatus r (some approvedStr)) = true := by
      simp [isApproved, statusOf, setStatus]
    have e1 : ratingsOf (setStatus r (some approvedStr) :: rs.filter isApproved) =
        ratingsOf (r :: rs.filter isApproved) := by
      simp [ratingsOf, List.filterMap_cons, setStatus_rating]
    have e2 : (setStatus r (some approvedStr) :: rs.filter isApproved).countP isFastReply =
        (r :: rs.filter isApproved).countP isFastReply := by
      simp [List.countP_cons, isFastReply_setStatus]
    have e3 : pyListMap resolvedCheck (setStatus r (some approvedStr) :: rs.filter isApproved) =
        pyListMap resolvedCheck (r :: rs.filter isApproved) := by
      simp [pyListMap, resolvedCheck_setStatus]
    have hsig : reviewSignal (setStatus r (some approvedStr) :: rs.filter isApproved) =
        reviewSignal (r :: rs.filter isApproved) := by
      rw [reviewSignal, reviewSignal, e1, e2, e3]
    simp [calculate_from_reviews, List.filter_cons, happ, happ', hsig]
  · rw [isApproved, statusOf]
    cases hs : r.status with
    | none => simp
    | some s => simp [beq_iff_eq]

/-- C9 witness: with a concrete status-free review the two runs agree. -/
theorem missing_status_treated_as_approved_witness :
    calculate_from_reviews [reviewGood] =
      calculate_from_reviews [setStatus reviewGood (some approvedStr)] ∧
    isApproved reviewGood = true :=
  ⟨(missing_status_treated_as_approved reviewGood []).1 rfl,
   (missing_status_treated_as_approved reviewGood []).2.mpr (Or.inl rfl)⟩

/-! C7 amended: the raw average decides the bucket. -/

/-- An approved review carrying a numeric rating and nothing else that could fire
the fast-reply or resolution rules. -/
def plainRated (r : Review) : Bool :=
  isApproved r &&
    (match r.rating with
     | some (PyScalar.num _) => true
     | _ => false) &&
    decide (r.reply = none) && decide (r.re_rating = none)

def numRating (r : Review) : Option Frac :=
  match r.rating with
  | some (PyScalar.num q) => some q
  | _ => none

/-- The unclamped mean of the raw rating values. -/
def rawAvg (rs : List Review) : Frac :=
  ((rs.filterMap numRating).foldl Frac.add (Frac.ofInt 0)).divNat
    (rs.filterMap numRating).length

def bucketMsg (q : Frac) : String :=
  if Frac.le (Frac.ofInt 4) q then "High ratings (" ++ fmt1 q ++ "★) (+20)"
  else if Frac.le (Frac.ofInt 3) q then "Good ratings (" ++ fmt1 q ++ "★) (+10)"
  else "Low ratings (" ++ fmt1 q ++ "★) (-15)"

lemma ratingsOf_eq_of_num (l : List Review)
    (h : ∀ r ∈ l, ∃ q, r.rating = some (PyScalar.num q)) :
    ratingsOf l = some (l.filterMap numRating) := by
  induction l with
  | nil => rfl
  | cons r l ih =>
    obtain ⟨q, hq⟩ := h r (by simp)
    have ihl := ih (fun x hx => h x (by simp [hx]))
    rw [ratingsOf] at ihl
    simp only [ratingsOf, List.filterMap_cons, hq, numRating, pyListMap, pyFloat, ihl]

lemma resolved_all_false (l : List Review) (h : ∀ r ∈ l, r.re_rating = none) :
    pyListMap resolvedCheck l = some (List.replicate l.length false) := by
  induction l with
  | nil => rfl
  | cons r l ih =>
    have hr := h r (by simp)
    have ihl := ih (fun x hx => h x (by simp [hx]))
    simp [pyListMap, resolvedCheck, hr, ihl, List.replicate_succ]

lemma isFastReply_of_reply_none (r : Review) (h : r.reply = none) :
    isFastReply r = false := by
  simp [isFastReply, h]

/-- C7 amended: out-of-range ratings are neither excluded nor clamped — on any
nonempty list of approved, plainly numeric-rated reviews the rating component is the
bucket of the *raw* average (≥4 → +20, ≥3 → +10, else −15, whatever the values). -/
theorem raw_average_decides_bucket (rs : List Review) (hne : rs ≠ [])
    (h : ∀ r ∈ rs, plainRated r = true) :
    calculate_from_reviews rs = some (ratingBucket (rawAvg rs), [bucketMsg (rawAvg rs)]) := by
  have hparts : ∀ r ∈ rs, isApproved r = true ∧ (∃ q, r.rating = some (PyScalar.num q)) ∧
      r.reply = none ∧ r.re_rating = none := by
    intro r hr
    have := h r hr
    rw [plainRated] at this
    simp only [Bool.and_eq_true, decide_eq_true_iff] at this
    refine ⟨this.1.1.1, ?_, this.1.2, this.2⟩
    rcases hq : r.rating with _ | v
    · rw [hq] at this; simp at this
    · rcases v with q | t
      · exact ⟨q, rfl⟩
      · rw [hq] at this; simp at this
  have hfilter : rs.filter isApproved = rs :=
    List.filter_eq_self.mpr (fun r hr => (hparts r hr).1)
  have hratings : ratingsOf rs = some (rs.filterMap numRating) :=
    ratingsOf_eq_of_num rs (fun r hr => (hparts r hr).2.1)
  have hfast : rs.countP isFastReply = 0 :=
    List.countP_eq_zero.mpr (fun r hr => by
      simp [isFastReply_of_reply_none r (hparts r hr).2.2.1])
  have hresolved : pyListMap resolvedCheck rs = some (List.replicate rs.length false) :=
    resolved_all_false rs (fun r hr => (hparts r hr).2.2.2)
  have hRne : rs.filterMap numRating ≠ [] := by
    rcases rs with _ | ⟨r0, rest⟩
    · exact absurd rfl hne
    · obtain ⟨q, hq⟩ := (hparts r0 (by simp)).2.1
      simp [List.filterMap_cons, numRating, hq]
  rw [calculate_from_reviews, if_neg hne]
  simp only [hfilter]
  rw [if_neg hne]
  rw [reviewSignal, hratings]
  simp only [hfast, hresolved, if_neg hRne, List.count_replicate]
  rw [rawAvg, ratingBucket, bucketMsg]
  split_ifs <;> simp_all

/-- C7 amended witness: the raw average of `[100, 1, 1]` decides the bucket. -/
theorem raw_average_decides_bucket_witness :
    calculate_from_reviews [review100, review1, review1] =
      some (ratingBucket (rawAvg [review100, review1, review1]),
            [bucketMsg (rawAvg [review100, review1, review1])]) :=
  raw_average_decides_bucket [review100, review1, review1] (by decide) (by decide)

/-! C8: the reasons sequence. -/

/-- C8 counterexample: with no official name and an empty review list the reasons
hold only the three validator messages — no official-name entry, no
"No reviews yet" entry. -/
theorem reasons_drop_name_and_empty_reviews :
    calculate_trust_score agency0 [] = some result0 ∧
    result0.reasons.length = 3 ∧
    ¬ ("No reviews yet" ∈ result0.reasons) ∧
    ¬ ("No official name" ∈ result0.reasons) ∧
    ¬ ("No approved reviews" ∈ result0.reasons) := by decide

lemma nameReasonsStr_empty_iff (n : List Char) :
    nameReasonsStr (validate_official_name n) = [] ↔ pyStrip n = [] := by
  by_cases h : n ≠ [] ∧ pyStrip n ≠ []
  · simp [validate_official_name, nameReasonsStr, h, h.2]
  · rw [not_and_or] at h
    rcases h with h | h
    · push_neg at h
      subst h
      simp [validate_official_name, nameReasonsStr, pyStrip]
    · push_neg at h
      simp [validate_official_name, nameReasonsStr, h]

/-- C8 amended: the reasons are, in order, the phone, e-mail and tax-ID messages,
then the official-name message only when a nonblank name is present (absence adds
nothing), then the review messages only when the review list is nonempty (an empty
list adds nothing; a nonempty list with no approved review adds exactly
"No approved reviews"). -/
theorem reasons_order (a : Agency) (rs : List Review) (res : ScoreResult)
    (h : calculate_trust_score a rs = some res) :
    ∃ revReasons,
      res.reasons =
        phoneReasonStr (validate_phone (a.phone.getD [])) ::
        emailReasonStr (validate_email (a.email.getD [])) ::
        rneReasonStr (validate_rne (a.tax_id.getD [])) ::
        (nameReasonsStr (validate_official_name (a.official_name.getD [])) ++ revReasons) ∧
      (rs = [] → revReasons = []) ∧
      (rs ≠ [] → rs.filter isApproved = [] → revReasons = ["No approved reviews"]) ∧
      (nameReasonsStr (validate_official_name (a.official_name.getD [])) = [] ↔
        pyStrip (a.official_name.getD []) = []) := by
  cases hm : reviewsComponent rs with
  | none => simp [calculate_trust_score, hm] at h
  | some p =>
    obtain ⟨rsc, rr⟩ := p
    simp only [calculate_trust_score, hm, Option.some.injEq] at h
    subst h
    refine ⟨rr, by simp, ?_, ?_, nameReasonsStr_empty_iff _⟩
    · intro hrs
      subst hrs
      rw [reviewsComponent] at hm
      simp only [if_pos rfl, if_true, Option.some.injEq, Prod.mk.injEq] at hm
      exact hm.2.symm
    · intro hne hap
      rw [reviewsComponent, if_neg hne, calculate_from_reviews, if_neg hne] at hm
      simp only [hap, if_pos rfl, if_true, Option.some.injEq, Prod.mk.injEq] at hm
      exact hm.2.symm

/-- C8 amended witness: instantiated on the all-empty agency with no reviews. -/
theorem reasons_order_witness :
    ∃ revReasons,
      result0.reasons =
        phoneReasonStr (validate_phone (agency0.phone.getD [])) ::
        emailReasonStr (validate_email (agency0.email.getD [])) ::
        rneReasonStr (validate_rne (agency0.tax_id.getD [])) ::
        (nameReasonsStr (validate_official_name (agency0.official_name.getD [])) ++ revReasons) ∧
      (([] : List Review) = [] → revReasons = []) ∧
      (([] : List Review) ≠ [] → List.filter isApproved [] = [] →
        revReasons = ["No approved reviews"]) ∧
      (nameReasonsStr (validate_official_name (agency0.official_name.getD [])) = [] ↔
        pyStrip (agency0.official_name.getD []) = []) :=
  reasons_order agency0 [] result0 (by decide)

/-- C10: every completed call returns `base_score = 50` and a `details` map whose
keys are exactly `phone, email, rne, official_name, reviews` in that order, each
entry carrying its component's flag/message and delta (for reviews: the review
delta and the raw review count), whatever branches fired. -/
theorem details_shape (a : Agency) (rs : List Review) (res : ScoreResult)
    (h : calculate_trust_score a rs = some res) :
    res.base_score = 50 ∧
    (∃ rsc : Int,
      res.details =
        [("phone", entryOf (validate_phone (a.phone.getD []))),
         ("email", entryOf (validate_email (a.email.getD []))),
         ("rne", entryOf (validate_rne (a.tax_id.getD []))),
         ("official_name",
           Entry.named (validate_official_name (a.official_name.getD [])).1
             (validate_official_name (a.official_name.getD [])).2.2),
         ("reviews", Entry.reviewsAgg rsc rs.length)]) ∧
    res.details.map Prod.fst = ["phone", "email", "rne", "official_name", "reviews"] := by
  cases hm : reviewsComponent rs with
  | none => simp [calculate_trust_score, hm] at h
  | some p =>
    obtain ⟨rsc, rr⟩ := p
    simp only [calculate_trust_score, hm, Option.some.injEq] at h
    subst h
    exact ⟨rfl, ⟨rsc, rfl⟩, rfl⟩

/-- C10 witness: instantiated on the all-empty agency with no reviews. -/
theorem details_shape_witness :
    result0.base_score = 50 ∧
    (∃ rsc : Int,
      result0.details =
        [("phone", entryOf (validate_phone (agency0.phone.getD []))),
         ("email", entryOf (validate_email (agency0.email.getD []))),
         ("rne", entryOf (validate_rne (agency0.tax_id.getD []))),
         ("official_name",
           Entry.named (validate_official_name (agency0.official_name.getD [])).1
             (validate_official_name (agency0.official_name.getD [])).2.2),
         ("reviews", Entry.reviewsAgg rsc (List.length ([] : List Review)))]) ∧
    result0.details.map Prod.fst = ["phone", "email", "rne", "official_name", "reviews"] :=
  details_shape agency0 [] result0 (by decide)

end Nexaway
